import Mathlib

/-!
Verification of the boot-decision core of the lk2nd second-stage bootloader
(`app/aboot/aboot.c`, function `aboot_init`).

The embedding below translates `aboot_init` into pure Lean functions:

* compile-time feature flags (`VERIFIED_BOOT`, `LK2ND_FORCE_FASTBOOT`,
  `NO_KEYPAD_DRIVER`, `TZ_TAMPER_FUSE`, `USE_PCOM_SECBOOT`,
  `ABOOT_STANDALONE`) become a `Config` record;
* the instantaneous hardware signals (key states, the forced-user-reset
  indicator, the reset-reason register, and the success or failure of the
  environment calls `reboot_device(EMERGENCY_DLOAD)`,
  `send_delete_keys_to_tz()` and `write_device_info`) become a `Signals`
  record;
* the global flags `boot_into_fastboot`, `boot_into_recovery` and
  `boot_reason_alarm` are threaded explicitly through `signalPhase`;
* the `goto`-based retry loop at the `retry_boot:` label becomes the
  well-founded recursion `retryLoop`;
* control transfers that never return (`reboot_device` succeeding,
  `ASSERT(0)`, a successful `boot_linux_from_mmc`/`boot_linux_from_flash`)
  become terminal constructors of `Outcome`.

The slot-metadata primitives (`partition_find_active_slot`,
`partition_mark_active_slot`, `partition_find_boot_slot`,
`partition_deactivate_slot`) are implemented outside the sources available
here, so they are modelled from the specification (§4.3) on a `SlotTable`
record.  Everything else is translated directly from `aboot.c`.
-/

namespace Aboot

/-- The decoded value of the hardware reset-reason register
(`check_reboot_mode` / `check_hard_reboot_mode`): `RECOVERY_MODE`,
`FASTBOOT_MODE`, `ALARM_BOOT`, `DM_VERITY_ENFORCING`,
`DM_VERITY_LOGGING` (or `DM_VERITY_EIO` on `ENABLE_VB_ATTEST` builds, which
is decoded identically), `DM_VERITY_KEYSCLEAR`, or any other value
(`normal`). -/
inductive RebootMode
  | normal
  | recoveryMode
  | fastbootMode
  | alarmBoot
  | dmVerityEnforcing
  | dmVerityLogging
  | dmVerityKeysclear
  deriving DecidableEq, Repr

/-- The normalized reboot intent of the specification's data model (§3). -/
inductive RebootIntent
  | none
  | recovery
  | fastboot
  | emergencyDownload
  | alarmBoot
  | verityEnforce
  | verityLogging
  | verityKeyClear
  deriving DecidableEq, Repr

/-- The persisted device security state (`device_info`): the fields the
boot-decision core reads or writes.  `verity_mode` mirrors the C field
(`1` = enforcing, `0` = logging). -/
structure DeviceState where
  is_unlocked : Bool
  is_tampered : Bool
  verity_mode : Nat
  deriving DecidableEq, Repr

/-- Compile-time configuration of the build, one field per preprocessor
flag consulted by `aboot_init` in the modelled region. -/
structure Config where
  /-- `VERIFIED_BOOT || VERIFIED_BOOT_2`: the verity-policy block is compiled in. -/
  verifiedBoot : Bool
  /-- `VB_M <= target_get_vb_version()`: the build meets the minimum verified-boot version. -/
  vbAtLeastM : Bool
  /-- `LK2ND_FORCE_FASTBOOT`. -/
  forceFastboot : Bool
  /-- `NO_KEYPAD_DRIVER`: `fastboot_trigger()` is consulted. -/
  noKeypadDriver : Bool
  /-- `TZ_TAMPER_FUSE`: `set_tamper_fuse_cmd` is compiled in. -/
  tzTamperFuse : Bool
  /-- `USE_PCOM_SECBOOT`: `set_tamper_flag` is compiled in. -/
  usePcomSecboot : Bool
  /-- `ABOOT_STANDALONE`: skip `read_device_info` and force `is_unlocked`. -/
  standalone : Bool
  deriving DecidableEq, Repr

/-- The instantaneous signals and environment-call outcomes `aboot_init`
consumes.  `dloadResetOk` is whether `reboot_device(EMERGENCY_DLOAD)`
succeeds (in which case it never returns); `deleteKeysOk` is whether
`send_delete_keys_to_tz()` returns zero; `writeDeviceOk` is whether the
non-volatile write behind `write_device_info` actually persists — the call
site in `aboot_init` discards any such outcome, so this field is never read
by the model, exactly as the source never reads it. -/
structure Signals where
  userForceReset : Bool
  volUp : Bool
  volDown : Bool
  home : Bool
  back : Bool
  fastbootTrigger : Bool
  rebootMode : RebootMode
  dloadResetOk : Bool
  deleteKeysOk : Bool
  writeDeviceOk : Bool
  deriving DecidableEq, Repr

/-- Modelled from the spec: the slot-metadata table of §4.3 (the
implementation behind `partition_find_active_slot`,
`partition_mark_active_slot`, `partition_find_boot_slot` and
`partition_deactivate_slot` is not among the sources).  `bootable` holds
one bootable bit per slot, index = slot id, lower index = higher priority;
`active` is the at-most-one active slot, `Option.none` when the table is
absent or corrupt (the C code's `INVALID`). -/
structure SlotTable where
  bootable : List Bool
  active : Option Nat
  deriving DecidableEq, Repr

/-- Modelled from the spec: `partition_find_active_slot` — the currently
active slot, or none if the slot table is absent/corrupt (§4.3). -/
def findActiveSlot (t : SlotTable) : Option Nat :=
  t.active

/-- Modelled from the spec: `partition_mark_active_slot` — sets exactly one
slot active, implicitly clearing any previously active slot; called with
`INVALID` (`Option.none`) it records no active slot (§4.3). -/
def markActiveSlot (t : SlotTable) (s : Option Nat) : SlotTable :=
  { t with active := s }

/-- Index of the first `true` in a list of bootable bits. -/
def firstTrue : List Bool → Option Nat
  | [] => Option.none
  | true :: _ => Option.some 0
  | false :: tl => (firstTrue tl).map (· + 1)

/-- Modelled from the spec: `partition_find_boot_slot` — the
highest-priority slot still marked bootable, none if all slots are
exhausted (§4.3). -/
def findBootSlot (t : SlotTable) : Option Nat :=
  firstTrue t.bootable

/-- Modelled from the spec: `partition_deactivate_slot` — idempotently
marks a slot non-bootable (§4.3). -/
def deactivateSlot (t : SlotTable) (s : Nat) : SlotTable :=
  { t with bootable := t.bootable.set s false }

/-- Number of still-bootable slots. -/
def countBootable (t : SlotTable) : Nat :=
  t.bootable.count true

/-- Observable side effects of the boot phase, in program order:
blowing the tamper fuse (`set_tamper_fuse_cmd`), setting the tamper flag
(`set_tamper_flag`), and invoking the OS loader
(`boot_linux_from_mmc` / `boot_linux_from_flash`) on a slot. -/
inductive Event
  | tamperFuse
  | tamperFlag
  | bootAttempt (slot : Option Nat)
  deriving DecidableEq, Repr

def isTamperEvent : Event → Bool
  | .tamperFuse => true
  | .tamperFlag => true
  | _ => false

def isBootAttempt : Event → Bool
  | .bootAttempt _ => true
  | _ => false

/-- The slots of the boot attempts recorded in a trace. -/
def attemptsOf (tr : List Event) : List Nat :=
  tr.filterMap fun e =>
    match e with
    | .bootAttempt (Option.some s) => Option.some s
    | _ => Option.none

/-- Result codes of `boot_linux_from_mmc` / `boot_linux_from_flash`.
`success` stands for the call transferring control to the loaded kernel
(it never returns in that case). -/
inductive BootErr
  | errInvalidPageSize
  | errDtParse
  | errAbootAddrOverlap
  | errInvalidBootMagic
  | errOther
  | success
  deriving DecidableEq, Repr

/-- The error codes the `switch` in `aboot_init` treats as retryable on a
multi-slot system. -/
def retryable : BootErr → Bool
  | .errInvalidPageSize => true
  | .errDtParse => true
  | .errAbootAddrOverlap => true
  | .errInvalidBootMagic => true
  | _ => false

/-- Terminal outcome of one run of `aboot_init`:
either control left the bootloader (a successful emergency-download reset,
or a successful kernel load from `slot`), or the `ASSERT(0)` halt fired, or
execution reached the `fastboot:` label. -/
inductive Outcome
  | emergencyReset
  | halt
  | booted (slot : Option Nat)
  | fastboot
  deriving DecidableEq, Repr

/-- State at the `normal_boot:` label: the three boot-mode flags, the
device record, the number of `write_device_info` calls performed so far
this boot, and the verity-policy intent consumed by the reason-register
chain (`RebootIntent.none` when none was). -/
structure SigOut where
  boot_into_fastboot : Bool
  boot_into_recovery : Bool
  boot_reason_alarm : Bool
  device : DeviceState
  writes : Nat
  policy : RebootIntent
  deriving DecidableEq, Repr

/-- How the signal-evaluation phase ends: control reaches `normal_boot:`
with state `o`, or leaves the bootloader via a successful
`reboot_device(EMERGENCY_DLOAD)`, or halts on `ASSERT(0)`. -/
inductive SigExit
  | emergencyReset
  | halt
  | proceed (o : SigOut)
  deriving DecidableEq, Repr

/-- The reset-reason if/else-if chain of `aboot_init` (the register decode
and the verified-boot policy block), entered with the current flag values
and device state. -/
def rebootModeChain (cfg : Config) (sg : Signals) (fb rc al : Bool)
    (d : DeviceState) : SigExit :=
  if sg.rebootMode = .recoveryMode then
    .proceed ⟨fb, true, al, d, 0, .none⟩
  else if sg.rebootMode = .fastbootMode then
    .proceed ⟨true, rc, al, d, 0, .none⟩
  else if sg.rebootMode = .alarmBoot then
    .proceed ⟨fb, rc, true, d, 0, .none⟩
  else if cfg.verifiedBoot && cfg.vbAtLeastM then
    if sg.rebootMode = .dmVerityEnforcing then
      .proceed ⟨fb, rc, al, { d with verity_mode := 1 }, 1, .verityEnforce⟩
    else if sg.rebootMode = .dmVerityLogging then
      .proceed ⟨fb, rc, al, { d with verity_mode := 0 }, 1, .verityLogging⟩
    else if sg.rebootMode = .dmVerityKeysclear then
      if sg.deleteKeysOk then
        .proceed ⟨fb, rc, al, d, 0, .verityKeyClear⟩
      else
        .halt
    else
      .proceed ⟨fb, rc, al, d, 0, .none⟩
  else
    .proceed ⟨fb, rc, al, d, 0, .none⟩

/-- The value of `boot_into_fastboot` after the key checks: the dual-key
check degrading to fastboot (when the emergency reset returned), then the
single-key check guarded by `!boot_into_fastboot` and
`!boot_into_recovery`, then the `NO_KEYPAD_DRIVER` trigger. -/
def keysFastboot (cfg : Config) (sg : Signals) (fb0 : Bool) : Bool :=
  let fb1 := fb0 || (sg.volUp && sg.volDown)
  let rc1 := !fb1 && sg.volUp
  let fb2 := fb1 || (!fb1 && !rc1 && (sg.home || sg.back || sg.volDown))
  fb2 || (cfg.noKeypadDriver && sg.fastbootTrigger)

/-- The value of `boot_into_recovery` after the key checks: volume-up
alone, guarded by `!boot_into_fastboot`. -/
def keysRecovery (sg : Signals) (fb0 : Bool) : Bool :=
  !(fb0 || (sg.volUp && sg.volDown)) && sg.volUp

/-- The `LK2ND_FORCE_FASTBOOT` override (source lines 198–202), applied
after the reason-register chain and before `normal_boot:`. -/
def applyForceFastboot (cfg : Config) : SigExit → SigExit
  | .proceed o =>
      .proceed { o with boot_into_fastboot := o.boot_into_fastboot || cfg.forceFastboot }
  | e => e

/-- The signal-evaluation and policy-application phase of `aboot_init`
(source lines 115–202): the forced-user-reset short circuit, the dual-key
emergency-download check, the single-key checks, the `fastboot_trigger`
check, the reset-reason chain and the `LK2ND_FORCE_FASTBOOT` override.
`fb0` is the value `boot_into_fastboot` already has from the active-slot
check that precedes this phase. -/
def signalPhase (cfg : Config) (sg : Signals) (fb0 : Bool)
    (d : DeviceState) : SigExit :=
  if sg.userForceReset then
    .proceed ⟨fb0, false, false, d, 0, .none⟩
  else if sg.volUp && sg.volDown && sg.dloadResetOk then
    .emergencyReset
  else
    applyForceFastboot cfg
      (rebootModeChain cfg sg (keysFastboot cfg sg fb0) (keysRecovery sg fb0) false d)

/-- The reboot intent the code resolves, read off the signal phase:
a successful emergency reset is the `EmergencyDownload` intent; the
`ASSERT(0)` halt fires while consuming the `VerityKeyClear` intent; at
`normal_boot:` the `boot_into_fastboot` flag decides first (it is the flag
the `normal_boot:` label tests), then `boot_into_recovery`, then
`boot_reason_alarm`, then the consumed verity-policy intent. -/
def resolvedIntent (cfg : Config) (sg : Signals) (fb0 : Bool)
    (d : DeviceState) : RebootIntent :=
  match signalPhase cfg sg fb0 d with
  | .emergencyReset => .emergencyDownload
  | .halt => .verityKeyClear
  | .proceed o =>
    if o.boot_into_fastboot then .fastboot
    else if o.boot_into_recovery then .recovery
    else if o.boot_reason_alarm then .alarmBoot
    else o.policy

/-- Result of the retry loop: its outcome, the trace of boot attempts, and
the slot table as left behind. -/
structure RetryOut where
  result : Outcome
  trace : List Event
  table : SlotTable
  deriving DecidableEq, Repr

/-- The `retry_boot:` loop of `aboot_init` on a multi-slot system:
find the highest-priority bootable slot, mark it active (the source calls
`partition_mark_active_slot` even on `INVALID`), bail out to `fastboot:`
when none remains, otherwise attempt it; on a retryable failure deactivate
it and loop.  `outcome s` is what `boot_linux_from_mmc` returns when
invoked with slot `s` active. -/
def retryLoop (outcome : Option Nat → BootErr) (t : SlotTable) : RetryOut :=
  match hs : findBootSlot t with
  | Option.none =>
      { result := .fastboot, trace := [], table := markActiveSlot t Option.none }
  | Option.some s =>
      let t1 := markActiveSlot t (Option.some s)
      match outcome (Option.some s) with
      | .success =>
          { result := .booted (Option.some s),
            trace := [.bootAttempt (Option.some s)], table := t1 }
      | e =>
          if retryable e then
            let r := retryLoop outcome (deactivateSlot t1 s)
            { r with trace := .bootAttempt (Option.some s) :: r.trace }
          else
            { result := .fastboot,
              trace := [.bootAttempt (Option.some s)], table := t1 }
termination_by countBootable t
decreasing_by
  simp only [countBootable, deactivateSlot, markActiveSlot]
  obtain ⟨l, a⟩ := t
  simp only [findBootSlot] at hs
  induction l generalizing s with
  | nil => simp [firstTrue] at hs
  | cons b tl ih =>
    cases b with
    | true =>
      simp only [firstTrue] at hs
      cases hs
      simp [List.count_cons]
    | false =>
      simp only [firstTrue] at hs
      cases h2 : firstTrue tl with
      | none => rw [h2] at hs; simp at hs
      | some s2 =>
        rw [h2] at hs
        injection hs with h3
        subst h3
        simpa [List.count_cons] using ih s2 h2

/-- The whole-run result: terminal outcome, event trace, final slot table,
final device record, and how many `write_device_info` calls happened. -/
structure Run where
  result : Outcome
  trace : List Event
  table : SlotTable
  device : DeviceState
  writes : Nat
  deriving DecidableEq, Repr

/-- The code from the `normal_boot:` label to the `fastboot:` label
(source lines 204–284): skip everything if `boot_into_fastboot` is set;
otherwise, on an eMMC signed-kernel build with an unlocked or tampered
device, signal the tamper state, then run the retry loop (multi-slot) or a
single load attempt; on the flash path, set the tamper flag if configured
and attempt a single flash load.  When `emmc` is false, `outcome
Option.none` stands for the result of `boot_linux_from_flash`. -/
def tamperEvents (cfg : Config) (signedKernel : Bool) (d : DeviceState) : List Event :=
  if signedKernel && (d.is_unlocked || d.is_tampered) then
    (if cfg.tzTamperFuse then [Event.tamperFuse] else []) ++
      (if cfg.usePcomSecboot then [Event.tamperFlag] else [])
  else []

def flashTamperEvents (cfg : Config) (d : DeviceState) : List Event :=
  if cfg.usePcomSecboot && (d.is_unlocked || d.is_tampered) then
    [Event.tamperFlag]
  else []

def bootPhase (cfg : Config) (multislot emmc signedKernel : Bool)
    (outcome : Option Nat → BootErr) (o : SigOut) (t : SlotTable) : Run :=
  if o.boot_into_fastboot then
    { result := .fastboot, trace := [], table := t, device := o.device, writes := o.writes }
  else if emmc then
    if multislot then
      let r := retryLoop outcome t
      { result := r.result, trace := tamperEvents cfg signedKernel o.device ++ r.trace,
        table := r.table, device := o.device, writes := o.writes }
    else
      match outcome Option.none with
      | .success =>
          { result := .booted Option.none,
            trace := tamperEvents cfg signedKernel o.device ++ [Event.bootAttempt Option.none],
            table := t, device := o.device, writes := o.writes }
      | _ =>
          { result := .fastboot,
            trace := tamperEvents cfg signedKernel o.device ++ [Event.bootAttempt Option.none],
            table := t, device := o.device, writes := o.writes }
  else
    match outcome Option.none with
    | .success =>
        { result := .booted Option.none,
          trace := flashTamperEvents cfg o.device ++ [Event.bootAttempt Option.none],
          table := t, device := o.device, writes := o.writes }
    | _ =>
        { result := .fastboot,
          trace := flashTamperEvents cfg o.device ++ [Event.bootAttempt Option.none],
          table := t, device := o.device, writes := o.writes }

/-- The device record as it stands when the decision logic starts:
`read_device_info` loads it from storage, except on `ABOOT_STANDALONE`
builds where `is_unlocked` is forced. -/
def initialDevice (cfg : Config) (d : DeviceState) : DeviceState :=
  if cfg.standalone then { d with is_unlocked := true } else d

/-- The value of `boot_into_fastboot` after the multi-slot active-slot
check (source lines 49–66). -/
def initialFastboot (multislot : Bool) (t : SlotTable) : Bool :=
  multislot && (findActiveSlot t).isNone

/-- The slot table after the multi-slot active-slot check: a valid active
slot is re-marked active. -/
def initialTable (multislot : Bool) (t : SlotTable) : SlotTable :=
  if multislot then
    match findActiveSlot t with
    | Option.none => t
    | Option.some s => markActiveSlot t (Option.some s)
  else t

/-- The boot-decision core of `aboot_init`, assembled from the phases
above: the active-slot check, then signal evaluation and policy
application, then the boot phase with its retry loop, falling through to
the `fastboot:` label. -/
def aboot_init (cfg : Config) (multislot emmc signedKernel : Bool)
    (sg : Signals) (d0 : DeviceState) (t0 : SlotTable)
    (outcome : Option Nat → BootErr) : Run :=
  let d := initialDevice cfg d0
  let fb0 := initialFastboot multislot t0
  let t1 := initialTable multislot t0
  match signalPhase cfg sg fb0 d with
  | .emergencyReset =>
      { result := .emergencyReset, trace := [], table := t1, device := d, writes := 0 }
  | .halt =>
      { result := .halt, trace := [], table := t1, device := d, writes := 0 }
  | .proceed o =>
      bootPhase cfg multislot emmc signedKernel outcome o t1

/-- The claim's fixed precedence table (§4.1, restated in C1), written
from the specification's words for comparison with the code:
forced-reset short-circuits to `None`; then the dual-key emergency check
(degrading to `Fastboot` if the reset request fails); then the single-key
checks; the reset-reason register is decoded only if no key-based intent
fired. -/
def decodeReason (cfg : Config) (sg : Signals) : RebootIntent :=
  match sg.rebootMode with
  | .recoveryMode => .recovery
  | .fastbootMode => .fastboot
  | .alarmBoot => .alarmBoot
  | .dmVerityEnforcing =>
      if cfg.verifiedBoot && cfg.vbAtLeastM then .verityEnforce else .none
  | .dmVerityLogging =>
      if cfg.verifiedBoot && cfg.vbAtLeastM then .verityLogging else .none
  | .dmVerityKeysclear =>
      if cfg.verifiedBoot && cfg.vbAtLeastM then .verityKeyClear else .none
  | .normal => .none

/-- The specification-side intent table of claim C1 (see `decodeReason`). -/
def specIntentTable (cfg : Config) (sg : Signals) : RebootIntent :=
  if sg.userForceReset then .none
  else if sg.volUp && sg.volDown then
    (if sg.dloadResetOk then .emergencyDownload else .fastboot)
  else if sg.volUp then .recovery
  else if sg.home || sg.back || sg.volDown then .fastboot
  else decodeReason cfg sg

/-- The amended intent table: as `specIntentTable`, except that the
reset-reason register is consulted even when a key-based intent fired —
a `FASTBOOT_MODE` register value overrides a key-latched intent, and a
`DM_VERITY_KEYSCLEAR` register value with a failing key deletion halts the
device (resolving as the `VerityKeyClear` intent) even when a key intent
fired. -/
def specIntentAmended (cfg : Config) (sg : Signals) : RebootIntent :=
  if sg.userForceReset then .none
  else if sg.volUp && sg.volDown && sg.dloadResetOk then .emergencyDownload
  else
    let keyIntent : Option RebootIntent :=
      if sg.volUp && sg.volDown then Option.some .fastboot
      else if sg.volUp then Option.some .recovery
      else if sg.home || sg.back || sg.volDown then Option.some .fastboot
      else Option.none
    match keyIntent with
    | Option.some k =>
        if sg.rebootMode = .dmVerityKeysclear ∧ (cfg.verifiedBoot && cfg.vbAtLeastM) = true
            ∧ sg.deleteKeysOk = false then
          .verityKeyClear
        else if sg.rebootMode = .fastbootMode then .fastboot
        else k
    | Option.none => decodeReason cfg sg

/-- A build with every optional feature off. -/
def plainConfig : Config :=
  ⟨false, false, false, false, false, false, false⟩

/-- A verified-boot build meeting the minimum verified-boot version. -/
def vbConfig : Config :=
  ⟨true, true, false, false, false, false, false⟩

/-- Quiet signals: no forced reset, no keys, normal reset reason, every
environment call succeeds. -/
def quietSignals : Signals :=
  ⟨false, false, false, false, false, false, .normal, true, true, true⟩

/-- A locked, untampered device in verity-logging state. -/
def lockedDevice : DeviceState :=
  ⟨false, false, 0⟩

/-- Key-clear reset reason with a failing deletion request. -/
def keysclearFailSignals : Signals :=
  { quietSignals with rebootMode := .dmVerityKeysclear, deleteKeysOk := false }

/-- Both volume keys pressed, emergency reset request failing. -/
def dualKeySignals : Signals :=
  { quietSignals with volUp := true, volDown := true, dloadResetOk := false }

/-- Both volume keys pressed, reset failing, and the key-clear register
code with a failing deletion request. -/
def dualKeyKeysclearSignals : Signals :=
  { dualKeySignals with rebootMode := .dmVerityKeysclear, deleteKeysOk := false }

/-! ## Helper lemmas -/

theorem firstTrue_some_get {l : List Bool} {s : Nat}
    (h : firstTrue l = Option.some s) : l.get? s = Option.some true := by
  induction l generalizing s with
  | nil => exact Option.noConfusion h
  | cons b tl ih =>
    cases b with
    | true =>
      injection h with h3
      subst h3
      rfl
    | false =>
      simp only [firstTrue] at h
      cases h2 : firstTrue tl with
      | none => rw [h2] at h; exact Option.noConfusion h
      | some s2 =>
        rw [h2] at h
        injection h with h3
        subst h3
        exact ih h2

theorem get_of_set_false {l : List Bool} {s j : Nat}
    (h : (l.set s false).get? j = Option.some true) :
    l.get? j = Option.some true := by
  induction l generalizing s j with
  | nil => exact Option.noConfusion h
  | cons b tl ih =>
    cases s with
    | zero =>
      cases j with
      | zero =>
        injection h with h3
        exact Bool.noConfusion h3
      | succ j2 => exact h
    | succ s2 =>
      cases j with
      | zero => exact h
      | succ j2 => exact ih h

theorem get_set_false_self {l : List Bool} {s : Nat}
    (h : l.get? s = Option.some true) :
    (l.set s false).get? s = Option.some false := by
  induction l generalizing s with
  | nil => exact Option.noConfusion h
  | cons b tl ih =>
    cases s with
    | zero => rfl
    | succ s2 => exact ih h

theorem set_false_self_ne_true (l : List Bool) (s : Nat) :
    (l.set s false).get? s ≠ Option.some true := by
  induction l generalizing s with
  | nil => exact fun h => Option.noConfusion h
  | cons b tl ih =>
    cases s with
    | zero =>
      intro h
      injection h with h3
      exact Bool.noConfusion h3
    | succ s2 => exact ih s2

theorem get_set_preserves_false {l : List Bool} {s : Nat} (j : Nat)
    (h : l.get? s = Option.some false) :
    (l.set j false).get? s = Option.some false := by
  induction l generalizing s j with
  | nil => exact h
  | cons b tl ih =>
    cases j with
    | zero =>
      cases s with
      | zero => rfl
      | succ s2 => exact h
    | succ j2 =>
      cases s with
      | zero => exact h
      | succ s2 => exact ih j2 h

/-- Structure of every `.proceed` result of the reason-register chain:
the flags are only ever raised (fastboot stays or becomes true), the
lock/tamper bits of the device are untouched, and at most one
`write_device_info` happens. -/
theorem rebootModeChain_proceed_inv {cfg : Config} {sg : Signals}
    {fb rc al : Bool} {d : DeviceState} {o : SigOut}
    (h : rebootModeChain cfg sg fb rc al d = .proceed o) :
    (o.boot_into_fastboot = fb ∨ o.boot_into_fastboot = true)
      ∧ o.device.is_unlocked = d.is_unlocked
      ∧ o.device.is_tampered = d.is_tampered
      ∧ o.writes ≤ 1 := by
  unfold rebootModeChain at h
  split_ifs at h <;>
    first
      | exact SigExit.noConfusion h
      | (cases h; exact ⟨Or.inl rfl, rfl, rfl, by simp⟩)
      | (cases h; exact ⟨Or.inr rfl, rfl, rfl, by simp⟩)

/-- The chain consumes the `VerityKeyClear` intent only when the key
deletion succeeded (otherwise it halts). -/
theorem rebootModeChain_policy_keyclear {cfg : Config} {sg : Signals}
    {fb rc al : Bool} {d : DeviceState} {o : SigOut}
    (h : rebootModeChain cfg sg fb rc al d = .proceed o)
    (hp : o.policy = .verityKeyClear) : sg.deleteKeysOk = true := by
  unfold rebootModeChain at h
  split_ifs at h <;>
    first
      | exact SigExit.noConfusion h
      | (cases h; first | exact RebootIntent.noConfusion hp | assumption)

/-- On a forced user reset, the signal phase jumps straight to
`normal_boot:` with nothing mutated. -/
theorem signalPhase_forced {cfg : Config} {sg : Signals} {fb0 : Bool}
    {d : DeviceState} (h : sg.userForceReset = true) :
    signalPhase cfg sg fb0 d = .proceed ⟨fb0, false, false, d, 0, .none⟩ := by
  unfold signalPhase
  simp [h]

/-- Structure of every `.proceed` result of the signal phase. -/
theorem signalPhase_proceed_inv {cfg : Config} {sg : Signals} {fb0 : Bool}
    {d : DeviceState} {o : SigOut}
    (h : signalPhase cfg sg fb0 d = .proceed o) :
    o.device.is_unlocked = d.is_unlocked
      ∧ o.device.is_tampered = d.is_tampered
      ∧ o.writes ≤ 1
      ∧ (fb0 = true → o.boot_into_fastboot = true)
      ∧ (cfg.forceFastboot = true → sg.userForceReset = false →
          o.boot_into_fastboot = true)
      ∧ (sg.userForceReset = false → (sg.volUp && sg.volDown) = true →
          o.boot_into_fastboot = true)
      ∧ (o.policy = .verityKeyClear → sg.deleteKeysOk = true) := by
  unfold signalPhase at h
  split_ifs at h with h1 h2
  · cases h
    refine ⟨rfl, rfl, by simp, fun hf => hf, ?_, ?_, fun hp => RebootIntent.noConfusion hp⟩
    · intro _ hfr
      rw [hfr] at h1
      exact Bool.noConfusion h1
    · intro hfr _
      rw [hfr] at h1
      exact Bool.noConfusion h1
  · cases hc : rebootModeChain cfg sg (keysFastboot cfg sg fb0) (keysRecovery sg fb0) false d with
    | emergencyReset => rw [hc] at h; exact SigExit.noConfusion h
    | halt => rw [hc] at h; exact SigExit.noConfusion h
    | proceed o2 =>
      rw [hc] at h
      cases h
      obtain ⟨hfb, hu, ht, hw⟩ := rebootModeChain_proceed_inv hc
      refine ⟨hu, ht, hw, ?_, ?_, ?_, ?_⟩
      · intro hf0
        subst hf0
        have hk : keysFastboot cfg sg true = true := by simp [keysFastboot]
        rcases hfb with hfb | hfb <;> simp [hfb, hk]
      · intro hff _
        simp [hff]
      · intro _ hdual
        have hk : keysFastboot cfg sg fb0 = true := by simp [keysFastboot, hdual]
        rcases hfb with hfb | hfb <;> simp [hfb, hk]
      · intro hp
        exact rebootModeChain_policy_keyclear hc hp

/-- The boot phase only reports the device state and write count handed to
it; it never mutates them. -/
theorem bootPhase_device_writes (cfg : Config)
    (multislot emmc signedKernel : Bool) (outcome : Option Nat → BootErr)
    (o : SigOut) (t : SlotTable) :
    (bootPhase cfg multislot emmc signedKernel outcome o t).device = o.device
      ∧ (bootPhase cfg multislot emmc signedKernel outcome o t).writes = o.writes := by
  unfold bootPhase
  split_ifs <;> constructor <;> (try rfl) <;> (split <;> rfl)

theorem retryLoop_none {outcome : Option Nat → BootErr} {t : SlotTable}
    (h : findBootSlot t = Option.none) :
    retryLoop outcome t
      = { result := .fastboot, trace := [], table := markActiveSlot t Option.none } := by
  rw [retryLoop.eq_def]
  split
  · rfl
  · rename_i s hs
    rw [h] at hs
    exact Option.noConfusion hs

theorem retryLoop_success {outcome : Option Nat → BootErr} {t : SlotTable} {s : Nat}
    (h : findBootSlot t = Option.some s) (ho : outcome (Option.some s) = .success) :
    retryLoop outcome t
      = { result := .booted (Option.some s),
          trace := [.bootAttempt (Option.some s)],
          table := markActiveSlot t (Option.some s) } := by
  rw [retryLoop.eq_def]
  split
  · rename_i hs
    rw [h] at hs
    exact Option.noConfusion hs
  · rename_i s2 hs
    rw [h] at hs
    injection hs with hs2
    subst hs2
    rw [ho]

theorem retryLoop_retry {outcome : Option Nat → BootErr} {t : SlotTable} {s : Nat}
    (h : findBootSlot t = Option.some s) (hns : outcome (Option.some s) ≠ .success)
    (ho : retryable (outcome (Option.some s)) = true) :
    retryLoop outcome t
      = { retryLoop outcome (deactivateSlot (markActiveSlot t (Option.some s)) s) with
          trace := .bootAttempt (Option.some s)
            :: (retryLoop outcome (deactivateSlot (markActiveSlot t (Option.some s)) s)).trace } := by
  rw [retryLoop.eq_def]
  split
  · rename_i hs
    rw [h] at hs
    exact Option.noConfusion hs
  · rename_i s2 hs
    rw [h] at hs
    injection hs with hs2
    subst hs2
    cases he : outcome (Option.some s) with
    | success => exact absurd he hns
    | _ => simp_all [retryable]

theorem retryLoop_noretry {outcome : Option Nat → BootErr} {t : SlotTable} {s : Nat}
    (h : findBootSlot t = Option.some s) (hns : outcome (Option.some s) ≠ .success)
    (ho : retryable (outcome (Option.some s)) = false) :
    retryLoop outcome t
      = { result := .fastboot, trace := [.bootAttempt (Option.some s)],
          table := markActiveSlot t (Option.some s) } := by
  rw [retryLoop.eq_def]
  split
  · rename_i hs
    rw [h] at hs
    exact Option.noConfusion hs
  · rename_i s2 hs
    rw [h] at hs
    injection hs with hs2
    subst hs2
    cases he : outcome (Option.some s) with
    | success => exact absurd he hns
    | _ => simp_all [retryable]

/-- Every event the retry loop emits is a boot attempt. -/
theorem retryLoop_trace_attempts (outcome : Option Nat → BootErr) (t : SlotTable) :
    ∀ e ∈ (retryLoop outcome t).trace, isBootAttempt e = true := by
  induction t using retryLoop.induct outcome with
  | case1 x hx =>
    rw [retryLoop_none hx]
    intro e he
    exact absurd he (List.not_mem_nil e)
  | case2 x s hx ho =>
    rw [retryLoop_success hx ho]
    intro e he
    rw [List.mem_singleton] at he
    subst he
    rfl
  | case3 x s hx t1 hns ho ih =>
    rw [retryLoop_retry hx (fun hc => hns hc) ho]
    intro e he
    rcases List.mem_cons.mp he with he | he
    · subst he
      rfl
    · exact ih e he
  | case4 x s hx hns ho =>
    rw [retryLoop_noretry hx (fun hc => hns hc)
      (by revert ho; cases retryable (outcome (Option.some s)) <;> simp)]
    intro e he
    rw [List.mem_singleton] at he
    subst he
    rfl

/-- A slot already non-bootable stays non-bootable through the retry
loop (the loop only ever deactivates). -/
theorem retryLoop_preserves_false (outcome : Option Nat → BootErr)
    (t : SlotTable) (j : Nat) (h : t.bootable.get? j = Option.some false) :
    (retryLoop outcome t).table.bootable.get? j = Option.some false := by
  induction t using retryLoop.induct outcome with
  | case1 x hx =>
    rw [retryLoop_none hx]
    exact h
  | case2 x s hx ho =>
    rw [retryLoop_success hx ho]
    exact h
  | case3 x s hx t1 hns ho ih =>
    rw [retryLoop_retry hx (fun hc => hns hc) ho]
    exact ih (get_set_preserves_false s h)
  | case4 x s hx hns ho =>
    rw [retryLoop_noretry hx (fun hc => hns hc)
      (by revert ho; cases retryable (outcome (Option.some s)) <;> simp)]
    exact h

/-- With `boot_into_fastboot` latched, the boot phase goes straight to the
`fastboot:` label with no boot attempt. -/
theorem bootPhase_fastboot (cfg : Config)
    (multislot emmc signedKernel : Bool) (outcome : Option Nat → BootErr)
    (o : SigOut) (t : SlotTable) (hfb : o.boot_into_fastboot = true) :
    bootPhase cfg multislot emmc signedKernel outcome o t
      = { result := .fastboot, trace := [], table := t,
          device := o.device, writes := o.writes } := by
  unfold bootPhase
  simp [hfb]

/-- The reason-register chain never requests an emergency reset. -/
theorem rebootModeChain_ne_emergency (cfg : Config) (sg : Signals)
    (fb rc al : Bool) (d : DeviceState) :
    rebootModeChain cfg sg fb rc al d ≠ .emergencyReset := by
  unfold rebootModeChain
  split_ifs <;> (intro h; exact SigExit.noConfusion h)

theorem attempts_no_tamper {tr : List Event}
    (h : ∀ e ∈ tr, isBootAttempt e = true) :
    ∀ e ∈ tr, isTamperEvent e = false := by
  intro e he
  cases e with
  | tamperFuse => exact absurd (h _ he) (by simp [isBootAttempt])
  | tamperFlag => exact absurd (h _ he) (by simp [isBootAttempt])
  | bootAttempt s => rfl

theorem tamperEvents_no_attempt (cfg : Config) (signedKernel : Bool)
    (d : DeviceState) :
    ∀ e ∈ tamperEvents cfg signedKernel d, isBootAttempt e = false := by
  intro e he
  unfold tamperEvents at he
  split_ifs at he <;>
    (try exact absurd he (List.not_mem_nil e)) <;>
    (rcases List.mem_append.mp he with he | he <;>
      (try exact absurd he (List.not_mem_nil e)) <;>
      (simp only [List.mem_singleton] at he; subst he; rfl))

theorem flashTamperEvents_no_attempt (cfg : Config) (d : DeviceState) :
    ∀ e ∈ flashTamperEvents cfg d, isBootAttempt e = false := by
  intro e he
  unfold flashTamperEvents at he
  split_ifs at he with h1
  · simp only [List.mem_singleton] at he
    subst he
    rfl
  · exact absurd he (List.not_mem_nil e)

theorem singleton_attempt_no_tamper (s : Option Nat) :
    ∀ e ∈ [Event.bootAttempt s], isTamperEvent e = false := by
  intro e he
  simp only [List.mem_singleton] at he
  subst he
  rfl

/-- The boot-phase trace splits into a prefix with no boot attempt (the
tamper events) and a suffix with no tamper event (the load attempts). -/
theorem bootPhase_trace_split (cfg : Config)
    (multislot emmc signedKernel : Bool) (outcome : Option Nat → BootErr)
    (o : SigOut) (t : SlotTable) :
    ∃ pre post,
      (bootPhase cfg multislot emmc signedKernel outcome o t).trace = pre ++ post
        ∧ (∀ e ∈ pre, isBootAttempt e = false)
        ∧ (∀ e ∈ post, isTamperEvent e = false) := by
  unfold bootPhase
  split_ifs with h1 h2 h3
  · exact ⟨[], [], rfl, by simp, by simp⟩
  · exact ⟨tamperEvents cfg signedKernel o.device, (retryLoop outcome t).trace, rfl,
      tamperEvents_no_attempt cfg signedKernel o.device,
      attempts_no_tamper (retryLoop_trace_attempts outcome t)⟩
  · cases ho : outcome Option.none <;>
      exact ⟨tamperEvents cfg signedKernel o.device, [Event.bootAttempt Option.none], rfl,
        tamperEvents_no_attempt cfg signedKernel o.device,
        singleton_attempt_no_tamper Option.none⟩
  · cases ho : outcome Option.none <;>
      exact ⟨flashTamperEvents cfg o.device, [Event.bootAttempt Option.none], rfl,
        flashTamperEvents_no_attempt cfg o.device,
        singleton_attempt_no_tamper Option.none⟩

/-! ## Claims -/

/-- Claim C1 (counterexample): the claim that the resolved intent always
matches the fixed precedence table is false.  With only volume-up pressed
(a key-based `Recovery` intent) and the reset-reason register holding
`FASTBOOT_MODE`, the code still consults the register, latches
`boot_into_fastboot`, and resolves `Fastboot`, while the claim's table
resolves `Recovery`. -/
theorem resolvedIntent_ne_table_at_volUp_fastboot_reg :
    resolvedIntent plainConfig
        { quietSignals with volUp := true, rebootMode := .fastbootMode }
        false lockedDevice = .fastboot
      ∧ specIntentTable plainConfig
          { quietSignals with volUp := true, rebootMode := .fastbootMode } = .recovery
      ∧ RebootIntent.fastboot ≠ RebootIntent.recovery :=
  ⟨rfl, rfl, by decide⟩

/-- Claim C1 (amended): the evaluation order is forced-reset, dual-key,
single-key, register, but the register is consulted even when a key-based
intent fired: a `FASTBOOT_MODE` register value overrides a key-latched
intent, and a `DM_VERITY_KEYSCLEAR` register value whose key deletion
fails halts the device even when a key intent fired; in all other cases
the first-positive-match precedence table holds, and the register is
decoded into an intent only when no key-based intent fired. -/
theorem resolvedIntent_eq_amended_table (vb vbm tz pc sa : Bool)
    (sg : Signals) (d : DeviceState) :
    resolvedIntent ⟨vb, vbm, false, false, tz, pc, sa⟩ sg false d
      = specIntentAmended ⟨vb, vbm, false, false, tz, pc, sa⟩ sg := by
  obtain ⟨uf, vu, vd, hm, bk, tg, rm, dr, dk, wk⟩ := sg
  cases uf with
  | true => rfl
  | false =>
    cases vu <;> cases vd <;> cases hm <;> cases bk <;> cases dr <;> cases dk <;>
      cases vb <;> cases vbm <;> cases rm <;> rfl

/-- Claim C2: under any all-retryable failure pattern, the multi-slot
retry loop attempts pairwise-distinct slots, attempts only slots bootable
at entry (so never a slot deactivated earlier in the same cycle), leaves
every attempted slot deactivated, and terminates at the fastboot
fallback. -/
theorem retry_loop_attempts_each_slot_once (outcome : Option Nat → BootErr)
    (t : SlotTable) (hretry : ∀ s, retryable (outcome (Option.some s)) = true) :
    (attemptsOf (retryLoop outcome t).trace).Nodup
      ∧ (∀ s ∈ attemptsOf (retryLoop outcome t).trace,
          t.bootable.get? s = Option.some true)
      ∧ (∀ s ∈ attemptsOf (retryLoop outcome t).trace,
          (retryLoop outcome t).table.bootable.get? s = Option.some false)
      ∧ (retryLoop outcome t).result = .fastboot := by
  induction t using retryLoop.induct outcome with
  | case1 x hx =>
    rw [retryLoop_none hx]
    refine ⟨List.nodup_nil, ?_, ?_, rfl⟩ <;>
      (intro s hs; exact absurd hs (by simp [attemptsOf]))
  | case2 x s hx ho =>
    have hr := hretry s
    rw [ho] at hr
    exact absurd hr (by simp [retryable])
  | case3 x s hx t1 hns ho ih =>
    rw [retryLoop_retry hx (fun hc => hns hc) ho]
    obtain ⟨ihn, ihinit, ihfin, ihres⟩ := ih
    have hboot : x.bootable.get? s = Option.some true := firstTrue_some_get hx
    have hset : (deactivateSlot (markActiveSlot x (Option.some s)) s).bootable
        = x.bootable.set s false := rfl
    have hcons : attemptsOf (Event.bootAttempt (Option.some s)
        :: (retryLoop outcome (deactivateSlot (markActiveSlot x (Option.some s)) s)).trace)
        = s :: attemptsOf
            (retryLoop outcome (deactivateSlot (markActiveSlot x (Option.some s)) s)).trace := rfl
    refine ⟨?_, ?_, ?_, ihres⟩
    · rw [hcons]
      refine List.nodup_cons.mpr ⟨?_, ihn⟩
      intro hmem
      have hin := ihinit s hmem
      rw [hset] at hin
      exact set_false_self_ne_true _ _ hin
    · rw [hcons]
      intro j hj
      rcases List.mem_cons.mp hj with hj | hj
      · subst hj; exact hboot
      · have hin := ihinit j hj
        rw [hset] at hin
        exact get_of_set_false hin
    · rw [hcons]
      intro j hj
      rcases List.mem_cons.mp hj with hj | hj
      · subst hj
        have hfalse : (deactivateSlot (markActiveSlot x (Option.some j)) j).bootable.get? j
            = Option.some false := by
          rw [hset]
          exact get_set_false_self hboot
        exact retryLoop_preserves_false outcome _ j hfalse
      · exact ihfin j hj
  | case4 x s hx hns ho =>
    exact absurd (hretry s) ho

/-- Claim C2 (witness): a 2-slot table whose every load attempt fails with
a device-tree parse error: both slots are attempted once each, both end up
deactivated, and the loop ends at the fastboot fallback. -/
theorem retry_loop_attempts_each_slot_once_witness :
    (∀ s : Nat, retryable ((fun _ : Option Nat => BootErr.errDtParse) (Option.some s)) = true)
      ∧ ((attemptsOf (retryLoop (fun _ : Option Nat => BootErr.errDtParse)
            ⟨[true, true], Option.none⟩).trace).Nodup
        ∧ (∀ s ∈ attemptsOf (retryLoop (fun _ : Option Nat => BootErr.errDtParse)
              ⟨[true, true], Option.none⟩).trace,
            (SlotTable.mk [true, true] Option.none).bootable.get? s = Option.some true)
        ∧ (∀ s ∈ attemptsOf (retryLoop (fun _ : Option Nat => BootErr.errDtParse)
              ⟨[true, true], Option.none⟩).trace,
            (retryLoop (fun _ : Option Nat => BootErr.errDtParse)
              ⟨[true, true], Option.none⟩).table.bootable.get? s = Option.some false)
        ∧ (retryLoop (fun _ : Option Nat => BootErr.errDtParse)
            ⟨[true, true], Option.none⟩).result = .fastboot) :=
  ⟨fun _ => rfl,
    retry_loop_attempts_each_slot_once (fun _ : Option Nat => BootErr.errDtParse)
      ⟨[true, true], Option.none⟩ (fun _ => rfl)⟩

/-- Claim C3 (counterexample): the claim that an invalid active slot makes
the terminal decision `EnterFastboot` regardless of every other signal is
false: with both volume keys pressed and the emergency reset succeeding,
the run ends in the emergency-download reset, not at the fastboot label. -/
theorem invalid_slot_dual_key_cex :
    (aboot_init plainConfig true true false
        { quietSignals with volUp := true, volDown := true } lockedDevice
        ⟨[true], Option.none⟩ (fun _ => .success)).result = .emergencyReset
      ∧ (aboot_init plainConfig true true false
          { quietSignals with volUp := true, volDown := true } lockedDevice
          ⟨[true], Option.none⟩ (fun _ => .success)).result ≠ .fastboot :=
  ⟨rfl, by decide⟩

/-- Claim C3 (amended): on a multi-slot system whose active-slot lookup
returns none, the run ends at the fastboot label regardless of forced
reset, keys and register values, provided the signal phase does not leave
the bootloader first (successful emergency-download reset) and does not
hit the fatal key-clear assertion. -/
theorem invalid_active_slot_forces_fastboot
    (cfg : Config) (emmc signedKernel : Bool) (sg : Signals)
    (d0 : DeviceState) (t0 : SlotTable) (outcome : Option Nat → BootErr)
    (hinv : findActiveSlot t0 = Option.none)
    (h1 : (aboot_init cfg true emmc signedKernel sg d0 t0 outcome).result ≠ .emergencyReset)
    (h2 : (aboot_init cfg true emmc signedKernel sg d0 t0 outcome).result ≠ .halt) :
    (aboot_init cfg true emmc signedKernel sg d0 t0 outcome).result = .fastboot := by
  have hfb0 : initialFastboot true t0 = true := by
    simp [initialFastboot, hinv]
  simp only [aboot_init] at h1 h2 ⊢
  cases hs : signalPhase cfg sg (initialFastboot true t0) (initialDevice cfg d0) with
  | emergencyReset =>
    rw [hs] at h1
    exact absurd rfl h1
  | halt =>
    rw [hs] at h2
    exact absurd rfl h2
  | proceed o =>
    have hfb := ((signalPhase_proceed_inv hs).2.2.2.1) hfb0
    show (bootPhase cfg true emmc signedKernel outcome o (initialTable true t0)).result
      = Outcome.fastboot
    rw [bootPhase_fastboot cfg true emmc signedKernel outcome o _ hfb]

/-- Claim C3 (amended, witness): invalid active slot with recovery key and
recovery register: the run still ends at the fastboot label. -/
theorem invalid_active_slot_forces_fastboot_witness :
    findActiveSlot ⟨[true], Option.none⟩ = Option.none
      ∧ (aboot_init plainConfig true true false
          { quietSignals with volUp := true, rebootMode := .recoveryMode }
          lockedDevice ⟨[true], Option.none⟩ (fun _ => .success)).result = .fastboot :=
  ⟨rfl, invalid_active_slot_forces_fastboot plainConfig true false
    { quietSignals with volUp := true, rebootMode := .recoveryMode }
    lockedDevice ⟨[true], Option.none⟩ (fun _ => .success)
    rfl (by decide) (by decide)⟩

/-- Claim C4: when the resolved reboot intent is `VerityKeyClear` (so the
build meets the minimum verified-boot version and no earlier signal fired)
and the key-deletion request to the trusted execution environment fails,
the run halts on `ASSERT(0)`: no decision is produced, no retry, no
fallback. -/
theorem verity_keyclear_failure_halts
    (cfg : Config) (multislot emmc signedKernel : Bool) (sg : Signals)
    (d0 : DeviceState) (t0 : SlotTable) (outcome : Option Nat → BootErr)
    (hint : resolvedIntent cfg sg (initialFastboot multislot t0)
        (initialDevice cfg d0) = .verityKeyClear)
    (hdel : sg.deleteKeysOk = false) :
    (aboot_init cfg multislot emmc signedKernel sg d0 t0 outcome).result = .halt := by
  unfold resolvedIntent at hint
  simp only [aboot_init]
  cases hs : signalPhase cfg sg (initialFastboot multislot t0) (initialDevice cfg d0) with
  | emergencyReset =>
    rw [hs] at hint
    exact RebootIntent.noConfusion hint
  | halt => rfl
  | proceed o =>
    rw [hs] at hint
    have hint2 : (if o.boot_into_fastboot = true then RebootIntent.fastboot
        else if o.boot_into_recovery = true then RebootIntent.recovery
        else if o.boot_reason_alarm = true then RebootIntent.alarmBoot
        else o.policy) = RebootIntent.verityKeyClear := hint
    split_ifs at hint2 <;> try exact RebootIntent.noConfusion hint2
    have hk := (signalPhase_proceed_inv hs).2.2.2.2.2.2 hint2
    rw [hdel] at hk
    exact Bool.noConfusion hk

/-- Claim C4 (witness): a verified-boot build with the key-clear reset
reason and a failing deletion request halts. -/
theorem verity_keyclear_failure_halts_witness :
    resolvedIntent vbConfig keysclearFailSignals
        (initialFastboot false ⟨[], Option.none⟩) (initialDevice vbConfig lockedDevice)
      = .verityKeyClear
      ∧ keysclearFailSignals.deleteKeysOk = false
      ∧ (aboot_init vbConfig false true false keysclearFailSignals
          lockedDevice ⟨[], Option.none⟩ (fun _ => .success)).result = .halt :=
  ⟨rfl, rfl,
    verity_keyclear_failure_halts vbConfig false true false keysclearFailSignals
      lockedDevice ⟨[], Option.none⟩ (fun _ => .success) rfl rfl⟩

/-- Claim C5 (counterexample): the claim that the compile-time
force-fastboot flag makes the decision `EnterFastboot` even under a forced
user reset is false: the forced-reset short circuit jumps past the flag
assignment, and with a healthy single-slot system the kernel boots. -/
theorem force_fastboot_forced_reset_cex :
    (aboot_init { plainConfig with forceFastboot := true } false true false
        { quietSignals with userForceReset := true } lockedDevice
        ⟨[], Option.none⟩ (fun _ => .success)).result = .booted Option.none
      ∧ (aboot_init { plainConfig with forceFastboot := true } false true false
          { quietSignals with userForceReset := true } lockedDevice
          ⟨[], Option.none⟩ (fun _ => .success)).result ≠ .fastboot :=
  ⟨rfl, by decide⟩

/-- Claim C5 (amended): with the compile-time force-fastboot flag set and
the forced-user-reset indicator clear, the run ends at the fastboot label
regardless of every other signal and of slot health, provided the signal
phase does not leave the bootloader first (successful emergency-download
reset) and does not hit the fatal key-clear assertion. -/
theorem force_fastboot_flag_forces_fastboot
    (cfg : Config) (multislot emmc signedKernel : Bool) (sg : Signals)
    (d0 : DeviceState) (t0 : SlotTable) (outcome : Option Nat → BootErr)
    (hff : cfg.forceFastboot = true) (hfr : sg.userForceReset = false)
    (h1 : (aboot_init cfg multislot emmc signedKernel sg d0 t0 outcome).result
      ≠ .emergencyReset)
    (h2 : (aboot_init cfg multislot emmc signedKernel sg d0 t0 outcome).result ≠ .halt) :
    (aboot_init cfg multislot emmc signedKernel sg d0 t0 outcome).result = .fastboot := by
  simp only [aboot_init] at h1 h2 ⊢
  cases hs : signalPhase cfg sg (initialFastboot multislot t0) (initialDevice cfg d0) with
  | emergencyReset =>
    rw [hs] at h1
    exact absurd rfl h1
  | halt =>
    rw [hs] at h2
    exact absurd rfl h2
  | proceed o =>
    have hfb := (signalPhase_proceed_inv hs).2.2.2.2.1 hff hfr
    show (bootPhase cfg multislot emmc signedKernel outcome o (initialTable multislot t0)).result
      = Outcome.fastboot
    rw [bootPhase_fastboot cfg multislot emmc signedKernel outcome o _ hfb]

/-- Claim C5 (amended, witness): force-fastboot flag on, no forced reset,
healthy active slot and a loader that would succeed: still fastboot. -/
theorem force_fastboot_flag_forces_fastboot_witness :
    ({ plainConfig with forceFastboot := true } : Config).forceFastboot = true
      ∧ quietSignals.userForceReset = false
      ∧ (aboot_init { plainConfig with forceFastboot := true } true true false quietSignals
          lockedDevice ⟨[true], Option.some 0⟩ (fun _ => .success)).result = .fastboot :=
  ⟨rfl, rfl,
    force_fastboot_flag_forces_fastboot { plainConfig with forceFastboot := true }
      true true false quietSignals lockedDevice ⟨[true], Option.some 0⟩
      (fun _ => .success) rfl rfl (by decide) (by decide)⟩

/-- Claim C6: on builds meeting the minimum verified-boot version,
`DM_VERITY_ENFORCING` sets `verity_mode = 1` with one persist and
`DM_VERITY_LOGGING` sets `verity_mode = 0` with one persist; re-applying
the chain to the resulting device state changes nothing (idempotence); a
whole run performs at most one `write_device_info`; and on builds below
the minimum version the verity reset reasons leave the device state
untouched and unwritten. -/
theorem verity_policy_engine (cfg : Config) (sg : Signals) (fb rc al : Bool)
    (d : DeviceState) (multislot emmc signedKernel : Bool) (d0 : DeviceState)
    (t0 : SlotTable) (outcome : Option Nat → BootErr) :
    ((cfg.verifiedBoot && cfg.vbAtLeastM) = true → sg.rebootMode = .dmVerityEnforcing →
        rebootModeChain cfg sg fb rc al d
          = .proceed ⟨fb, rc, al, { d with verity_mode := 1 }, 1, .verityEnforce⟩)
      ∧ ((cfg.verifiedBoot && cfg.vbAtLeastM) = true → sg.rebootMode = .dmVerityLogging →
          rebootModeChain cfg sg fb rc al d
            = .proceed ⟨fb, rc, al, { d with verity_mode := 0 }, 1, .verityLogging⟩)
      ∧ (∀ o o2 : SigOut, rebootModeChain cfg sg fb rc al d = .proceed o →
          rebootModeChain cfg sg fb rc al o.device = .proceed o2 → o2.device = o.device)
      ∧ (aboot_init cfg multislot emmc signedKernel sg d0 t0 outcome).writes ≤ 1
      ∧ ((cfg.verifiedBoot && cfg.vbAtLeastM) = false →
          sg.rebootMode = .dmVerityEnforcing ∨ sg.rebootMode = .dmVerityLogging ∨
            sg.rebootMode = .dmVerityKeysclear →
          rebootModeChain cfg sg fb rc al d = .proceed ⟨fb, rc, al, d, 0, .none⟩) := by
  refine ⟨?_, ?_, ?_, ?_, ?_⟩
  · intro hvb hm
    unfold rebootModeChain
    simp [hm, hvb]
  · intro hvb hm
    unfold rebootModeChain
    simp [hm, hvb]
  · intro o o2 hA hB
    unfold rebootModeChain at hA hB
    split_ifs at hA hB <;>
      first
        | exact SigExit.noConfusion hA
        | exact SigExit.noConfusion hB
        | (cases hA; cases hB; rfl)
  · simp only [aboot_init]
    cases hs : signalPhase cfg sg (initialFastboot multislot t0) (initialDevice cfg d0) with
    | emergencyReset => exact Nat.zero_le 1
    | halt => exact Nat.zero_le 1
    | proceed o =>
      show (bootPhase cfg multislot emmc signedKernel outcome o
        (initialTable multislot t0)).writes ≤ 1
      rw [(bootPhase_device_writes cfg multislot emmc signedKernel outcome o
        (initialTable multislot t0)).2]
      exact (signalPhase_proceed_inv hs).2.2.1
  · intro hvb hm
    rcases hm with hm | hm | hm <;> (unfold rebootModeChain; simp [hm, hvb])

/-- Claim C7 (counterexample): the claim that a failing emergency reset
always degrades the decision to `EnterFastboot` is false: if the
reset-reason register additionally holds the key-clear code and the key
deletion fails, the run halts instead. -/
theorem dual_key_reset_failure_halt_cex :
    (aboot_init vbConfig false true false dualKeyKeysclearSignals
        lockedDevice ⟨[], Option.none⟩ (fun _ => .success)).result = .halt
      ∧ (aboot_init vbConfig false true false dualKeyKeysclearSignals
          lockedDevice ⟨[], Option.none⟩ (fun _ => .success)).result ≠ .fastboot :=
  ⟨rfl, by decide⟩

/-- Claim C7 (amended): with both volume keys pressed and no forced reset,
a successful emergency reset leaves the bootloader with the
`EmergencyDownload` intent; a failed reset latches fastboot, so — unless
the fatal key-clear assertion fires — the run ends at the fastboot label
with no boot attempted. -/
theorem dual_key_emergency_download
    (cfg : Config) (multislot emmc signedKernel : Bool) (sg : Signals)
    (d0 : DeviceState) (t0 : SlotTable) (outcome : Option Nat → BootErr)
    (hfr : sg.userForceReset = false) (hu : sg.volUp = true) (hd : sg.volDown = true) :
    (sg.dloadResetOk = true →
        resolvedIntent cfg sg (initialFastboot multislot t0) (initialDevice cfg d0)
          = .emergencyDownload
        ∧ (aboot_init cfg multislot emmc signedKernel sg d0 t0 outcome).result
          = .emergencyReset)
      ∧ (sg.dloadResetOk = false →
          (aboot_init cfg multislot emmc signedKernel sg d0 t0 outcome).result ≠ .halt →
          (aboot_init cfg multislot emmc signedKernel sg d0 t0 outcome).result = .fastboot
            ∧ (aboot_init cfg multislot emmc signedKernel sg d0 t0 outcome).trace = []) := by
  constructor
  · intro hres
    have hs : signalPhase cfg sg (initialFastboot multislot t0) (initialDevice cfg d0)
        = .emergencyReset := by
      unfold signalPhase
      simp [hfr, hu, hd, hres]
    constructor
    · unfold resolvedIntent
      rw [hs]
    · simp only [aboot_init]
      rw [hs]
  · intro hres hnh
    simp only [aboot_init] at hnh ⊢
    cases hs : signalPhase cfg sg (initialFastboot multislot t0) (initialDevice cfg d0) with
    | emergencyReset =>
      unfold signalPhase at hs
      simp only [hfr, hu, hd, hres] at hs
      cases hc : rebootModeChain cfg sg (keysFastboot cfg sg (initialFastboot multislot t0))
          (keysRecovery sg (initialFastboot multislot t0)) false (initialDevice cfg d0) with
      | emergencyReset =>
        exact absurd hc (rebootModeChain_ne_emergency cfg sg _ _ false (initialDevice cfg d0))
      | halt =>
        rw [hc] at hs
        exact SigExit.noConfusion hs
      | proceed o2 =>
        rw [hc] at hs
        exact SigExit.noConfusion hs
    | halt =>
      rw [hs] at hnh
      exact absurd rfl hnh
    | proceed o =>
      have hfb := (signalPhase_proceed_inv hs).2.2.2.2.2.1 hfr (by simp [hu, hd])
      constructor
      · show (bootPhase cfg multislot emmc signedKernel outcome o
          (initialTable multislot t0)).result = Outcome.fastboot
        rw [bootPhase_fastboot cfg multislot emmc signedKernel outcome o _ hfb]
      · show (bootPhase cfg multislot emmc signedKernel outcome o
          (initialTable multislot t0)).trace = []
        rw [bootPhase_fastboot cfg multislot emmc signedKernel outcome o _ hfb]

/-- Claim C7 (witness): both volume keys, reset request fails, quiet
otherwise: the decision is fastboot with no boot attempt. -/
theorem dual_key_emergency_download_witness :
    (dualKeySignals.dloadResetOk = true →
        resolvedIntent plainConfig dualKeySignals
            (initialFastboot false ⟨[], Option.none⟩)
            (initialDevice plainConfig lockedDevice) = .emergencyDownload
        ∧ (aboot_init plainConfig false true false dualKeySignals
            lockedDevice ⟨[], Option.none⟩ (fun _ => .success)).result = .emergencyReset)
      ∧ (dualKeySignals.dloadResetOk = false →
          (aboot_init plainConfig false true false dualKeySignals
            lockedDevice ⟨[], Option.none⟩ (fun _ => .success)).result ≠ .halt →
          (aboot_init plainConfig false true false dualKeySignals
            lockedDevice ⟨[], Option.none⟩ (fun _ => .success)).result = .fastboot
            ∧ (aboot_init plainConfig false true false dualKeySignals
                lockedDevice ⟨[], Option.none⟩ (fun _ => .success)).trace = []) :=
  dual_key_emergency_download plainConfig false true false dualKeySignals
    lockedDevice ⟨[], Option.none⟩ (fun _ => .success) rfl rfl rfl

/-- Claim C8: in every run, all tamper-signal events precede all boot
attempts in the trace; and on an eMMC signed-kernel build with an unlocked
or tampered device whose signal phase proceeds without a latched fastboot
flag, the tamper fuse event is actually present in the trace (given the
`TZ_TAMPER_FUSE` mechanism is compiled in). -/
theorem tamper_signal_precedes_boot_attempt
    (cfg : Config) (multislot emmc signedKernel : Bool) (sg : Signals)
    (d0 : DeviceState) (t0 : SlotTable) (outcome : Option Nat → BootErr) :
    (∃ pre post,
        (aboot_init cfg multislot emmc signedKernel sg d0 t0 outcome).trace = pre ++ post
          ∧ (∀ e ∈ pre, isBootAttempt e = false)
          ∧ (∀ e ∈ post, isTamperEvent e = false))
      ∧ (∀ o : SigOut,
          signalPhase cfg sg (initialFastboot multislot t0) (initialDevice cfg d0)
            = .proceed o →
          o.boot_into_fastboot = false →
          emmc = true → signedKernel = true →
          ((initialDevice cfg d0).is_unlocked || (initialDevice cfg d0).is_tampered) = true →
          cfg.tzTamperFuse = true →
          Event.tamperFuse
            ∈ (aboot_init cfg multislot emmc signedKernel sg d0 t0 outcome).trace) := by
  constructor
  · simp only [aboot_init]
    cases hs : signalPhase cfg sg (initialFastboot multislot t0) (initialDevice cfg d0) with
    | emergencyReset => exact ⟨[], [], rfl, by simp, by simp⟩
    | halt => exact ⟨[], [], rfl, by simp, by simp⟩
    | proceed o =>
      exact bootPhase_trace_split cfg multislot emmc signedKernel outcome o
        (initialTable multislot t0)
  · intro o hs hfb hemmc hsk hunlock htz
    simp only [aboot_init]
    rw [hs]
    show Event.tamperFuse
      ∈ (bootPhase cfg multislot emmc signedKernel outcome o (initialTable multislot t0)).trace
    obtain ⟨hu, ht, -⟩ := signalPhase_proceed_inv hs
    have hcond : (signedKernel && (o.device.is_unlocked || o.device.is_tampered)) = true := by
      simp [hu, ht, hsk, hunlock]
    have hmem : Event.tamperFuse ∈ tamperEvents cfg signedKernel o.device := by
      unfold tamperEvents
      rw [if_pos hcond, if_pos htz]
      exact List.mem_append.mpr (Or.inl (List.mem_singleton.mpr rfl))
    unfold bootPhase
    split_ifs with h1 h2
    · exact absurd h1 (by simp [hfb])
    · exact List.mem_append.mpr (Or.inl hmem)
    · cases ho : outcome Option.none <;> exact List.mem_append.mpr (Or.inl hmem)

/-- Claim C9 (code_bug evaluation): the call site discards the outcome of
`write_device_info`, so a failing persist changes nothing: whatever the
write outcome, the enforcing-transition run still writes once and proceeds
to a boot decision instead of halting. -/
theorem device_write_failure_not_fatal :
    (∀ wOk : Bool,
        (aboot_init vbConfig false true false
            { quietSignals with rebootMode := .dmVerityEnforcing, writeDeviceOk := wOk }
            lockedDevice ⟨[], Option.none⟩ (fun _ => .success)).result
          = .booted Option.none)
      ∧ (aboot_init vbConfig false true false
          { quietSignals with rebootMode := .dmVerityEnforcing, writeDeviceOk := false }
          lockedDevice ⟨[], Option.none⟩ (fun _ => .success)).writes = 1
      ∧ (aboot_init vbConfig false true false
          { quietSignals with rebootMode := .dmVerityEnforcing, writeDeviceOk := false }
          lockedDevice ⟨[], Option.none⟩ (fun _ => .success)).result ≠ .halt := by
  refine ⟨fun wOk => rfl, rfl, by decide⟩

/-- Claim C10: a forced user reset jumps straight to `normal_boot:`,
bypassing the whole signal and policy block: the device record is exactly
the loaded one and `write_device_info` is never called, whatever the
reset-reason register holds. -/
theorem forced_reset_never_mutates_device
    (cfg : Config) (multislot emmc signedKernel : Bool) (sg : Signals)
    (d0 : DeviceState) (t0 : SlotTable) (outcome : Option Nat → BootErr)
    (h : sg.userForceReset = true) :
    (aboot_init cfg multislot emmc signedKernel sg d0 t0 outcome).device
        = initialDevice cfg d0
      ∧ (aboot_init cfg multislot emmc signedKernel sg d0 t0 outcome).writes = 0 := by
  simp only [aboot_init]
  rw [signalPhase_forced h]
  exact ⟨(bootPhase_device_writes cfg multislot emmc signedKernel outcome _
      (initialTable multislot t0)).1,
    (bootPhase_device_writes cfg multislot emmc signedKernel outcome _
      (initialTable multislot t0)).2⟩

/-- Claim C10 (witness): forced reset with the enforcing reset reason on a
verified-boot build: device untouched, zero writes. -/
theorem forced_reset_never_mutates_device_witness :
    (aboot_init vbConfig false true false
        { quietSignals with userForceReset := true, rebootMode := .dmVerityEnforcing }
        lockedDevice ⟨[], Option.none⟩ (fun _ => .success)).device
      = initialDevice vbConfig lockedDevice
      ∧ (aboot_init vbConfig false true false
          { quietSignals with userForceReset := true, rebootMode := .dmVerityEnforcing }
          lockedDevice ⟨[], Option.none⟩ (fun _ => .success)).writes = 0 :=
  forced_reset_never_mutates_device vbConfig false true false
    { quietSignals with userForceReset := true, rebootMode := .dmVerityEnforcing }
    lockedDevice ⟨[], Option.none⟩ (fun _ => .success) rfl

end Aboot
